import Mathlib

/-!
Verification of the ESQUELAS-IA normalization and repair layer.

This file shallowly embeds the local logic of the four SUNARP document
extraction pipelines (`app/controllers/*.py`): amount normalization
(`norm_amount`, `_norm_amount`, `_to_float_2`), date normalization
(`norm_date_ddmmyyyy`, `_norm_date_ddmmyyyy`), JSON repair
(`_repair_json_block`), schema defaulting, and the content-type gate.

Strings are modelled as `List Char`; Python machine floats are modelled by
`PyFloat`, an exact-rational model of CPython's `float(str)` conversion
(sign tracked separately so that negative zero is representable, overflow
to infinity at the IEEE round-to-nearest threshold, `inf` / `nan` words
accepted).  The rational model agrees with binary doubles on every value
these claims touch; it can differ from a double only in the last rounded
decimal digit on representation edge cases, never in the shape of the
output.  Only ASCII case conversion and ASCII whitespace/digits are
modelled (the code's inputs of interest are ASCII).
-/

set_option maxRecDepth 100000
set_option maxHeartbeats 4000000

namespace Esquelas

/-! ## Character and list-of-char utilities -/

def isDig (c : Char) : Bool :=
  48 ≤ c.toNat && c.toNat ≤ 57

def digitVal (c : Char) : Nat := c.toNat - 48

/-- ASCII whitespace, as stripped by Python's `str.strip` and `float`. -/
def isSpaceA (c : Char) : Bool :=
  c == ' ' || c == '\t' || c == '\n' || c == '\r' || c == '\x0b' || c == '\x0c'

def toUpperA (c : Char) : Char :=
  if 97 ≤ c.toNat && c.toNat ≤ 122 then Char.ofNat (c.toNat - 32) else c

def toLowerA (c : Char) : Char :=
  if 65 ≤ c.toNat && c.toNat ≤ 90 then Char.ofNat (c.toNat + 32) else c

def stripWS (l : List Char) : List Char :=
  ((l.dropWhile isSpaceA).reverse.dropWhile isSpaceA).reverse

/-- Python `str.replace pat rep`: leftmost, non-overlapping.  Fuel is the
length of the list; each step consumes at least one character. -/
def replaceSubAux (pat rep : List Char) : Nat → List Char → List Char
  | 0, l => l
  | _ + 1, [] => []
  | fuel + 1, c :: cs =>
    if pat ≠ [] ∧ pat.isPrefixOf (c :: cs) then
      rep ++ replaceSubAux pat rep fuel ((c :: cs).drop pat.length)
    else
      c :: replaceSubAux pat rep fuel cs

def replaceSub (pat rep l : List Char) : List Char :=
  replaceSubAux pat rep l.length l

def countChar (c : Char) (l : List Char) : Nat := l.count c

def digitsToNat (l : List Char) : Nat :=
  l.foldl (fun acc c => 10 * acc + digitVal c) 0

/-! ## Decimal digit rendering (`str` of a nonnegative integer) -/

def digitChar (d : Nat) : Char := Char.ofNat (48 + d)

/-- Decimal digits of `n`, most significant first, by fuelled recursion
(`Nat.rec` directly, so that the kernel can evaluate it cheaply). -/
def natDigitsAux (fuel : Nat) : Nat → List Char :=
  Nat.rec (motive := fun _ => Nat → List Char)
    (fun _ => [])
    (fun _ ih n =>
      if n < 10 then [digitChar n] else ih (n / 10) ++ [digitChar (n % 10)])
    fuel

def natDigits (n : Nat) : List Char := natDigitsAux (n + 1) n

theorem natDigitsAux_succ (fuel n : Nat) :
    natDigitsAux (fuel + 1) n =
      if n < 10 then [digitChar n]
      else natDigitsAux fuel (n / 10) ++ [digitChar (n % 10)] := rfl

theorem natDigitsAux_irrel :
    ∀ (n f1 f2 : Nat), n < f1 → n < f2 → natDigitsAux f1 n = natDigitsAux f2 n := by
  intro n
  induction n using Nat.strong_induction_on with
  | _ n ih =>
    intro f1 f2 h1 h2
    rcases f1 with _ | a
    · omega
    rcases f2 with _ | b
    · omega
    rw [natDigitsAux_succ, natDigitsAux_succ]
    by_cases h10 : n < 10
    · rw [if_pos h10, if_pos h10]
    · rw [if_neg h10, if_neg h10]
      have hlt : n / 10 < n := Nat.div_lt_self (by omega) (by omega)
      rw [ih (n / 10) hlt a b (by omega) (by omega)]

/-- Two-digit zero padding (`%02d`), for `n ≤ 99`. -/
def pad2 (n : Nat) : List Char :=
  if n < 10 then ['0', digitChar n] else natDigits n

/-! ## Model of CPython `float(str)` and float formatting

`PyFloat` carries the sign separately from the magnitude so that the model
can distinguish `0.0` from `-0.0` (as `float` and `%.2f` do). -/

inductive PyFloat where
  | finite (neg : Bool) (mag : ℚ)
  | infty (neg : Bool)
  | nan
  deriving DecidableEq, Repr

/-- Parse a run of decimal digits possibly containing underscores, which
CPython allows only strictly between two digits.  Returns the value, the
number of digits consumed, and the rest of the input. -/
def digRunAux : List Char → Nat → Nat → Nat × Nat × List Char
  | [], acc, k => (acc, k, [])
  | c :: cs, acc, k =>
    if isDig c then digRunAux cs (10 * acc + digitVal c) (k + 1)
    else if c = '_' then
      match cs with
      | d :: cs2 =>
        if isDig d then digRunAux cs2 (10 * acc + digitVal d) (k + 1)
        else (acc, k, c :: cs)
      | [] => (acc, k, c :: cs)
    else (acc, k, c :: cs)
  termination_by l _ _ => l.length
  decreasing_by all_goals (simp [List.length]; try omega)

def digRun (l : List Char) : Nat × Nat × List Char := digRunAux l 0 0

/-- Case-insensitive (ASCII) match of a keyword against a whole list. -/
def eqCI (l : List Char) (word : List Char) : Bool :=
  l.map toLowerA == word

/-- Magnitude of a parsed mantissa/exponent: `(i + f/10^fk) * 10^±e`. -/
def floatMag (i f fk : Nat) (eneg : Bool) (e : Nat) : ℚ :=
  let base : ℚ := (i : ℚ) + (f : ℚ) / ((10 : ℚ) ^ fk)
  if eneg then base / ((10 : ℚ) ^ e) else base * ((10 : ℚ) ^ e)

/-- IEEE double round-to-nearest overflow threshold, `2^1024 - 2^971`,
written as a literal so that evaluation never unfolds a large
exponentiation (see `dblOverflowN_eq`). -/
def dblOverflowN : Nat := 179769313486231570814527423731704356798070567525844996598917476803157260780028538760589558632766878171540458953514382464234321326889464182768467546703537516986049910576551282076245490090389328944075868508455133942304583236903222948165808559332123348274797826204144723168738177180919299881250404026184124858368

theorem dblOverflowN_eq : dblOverflowN = 2 ^ 1024 - 2 ^ 971 := by
  norm_num [dblOverflowN]

/-- The threshold as a rational: magnitudes at or above it convert to
infinity. -/
def dblOverflow : ℚ := (dblOverflowN : ℚ)

/-- Model of CPython `float(str)` on a character list.  Strips surrounding
whitespace, reads an optional sign, then `inf`/`infinity`/`nan`
(case-insensitively) or a decimal literal with optional underscores
(between digits only), fraction, and exponent.  Finite results whose
magnitude reaches the IEEE overflow threshold become infinities, as in
CPython. -/
def parsePyFloat (l0 : List Char) : Option PyFloat :=
  let l1 := stripWS l0
  let (neg, l2) :=
    match l1 with
    | '-' :: r => (true, r)
    | '+' :: r => (false, r)
    | r => (false, r)
  if eqCI l2 ['i','n','f'] || eqCI l2 ['i','n','f','i','n','i','t','y'] then
    some (PyFloat.infty neg)
  else if eqCI l2 ['n','a','n'] then
    some PyFloat.nan
  else
    let (i, ik, r1) := digRun l2
    let (f, fk, r2) :=
      match r1 with
      | '.' :: r => digRun r
      | _ => (0, 0, r1)
    let dotted := match r1 with | '.' :: _ => true | _ => false
    let r2' := if dotted then r2 else r1
    if ik + fk = 0 then none
    else
      match r2' with
      | [] => some (mkFinite neg (floatMag i f fk false 0))
      | c :: r3 =>
        if c = 'e' ∨ c = 'E' then
          let (eneg, r4) :=
            match r3 with
            | '-' :: r => (true, r)
            | '+' :: r => (false, r)
            | r => (false, r)
          let (e, ek, r5) := digRun r4
          if ek = 0 then none
          else match r5 with
            | [] => some (mkFinite neg (floatMag i f fk eneg e))
            | _ => none
        else none
where
  mkFinite (neg : Bool) (mag : ℚ) : PyFloat :=
    if dblOverflow ≤ mag then PyFloat.infty neg else PyFloat.finite neg mag

/-! ## Rounding and `%.2f` formatting -/

/-- Round-half-even of a nonnegative rational to a natural number
(the rounding CPython applies in `round` and `%.2f`). -/
def halfEvenNat (q : ℚ) : Nat :=
  let n := q.num.toNat
  let d := q.den
  let fl := n / d
  let r2 := 2 * (n % d)
  if r2 < d then fl
  else if d < r2 then fl + 1
  else if fl % 2 = 0 then fl else fl + 1

def cs (s : String) : List Char := s.data

/-- `"%.2f" % x` for a finite value: sign, integer digits, dot, two
fractional digits. -/
def formatF2 (neg : Bool) (mag : ℚ) : List Char :=
  let n := halfEvenNat (100 * mag)
  (if neg then ['-'] else []) ++ natDigits (n / 100) ++ '.' :: pad2 (n % 100)

/-- `f"{x:.2f}"` on a Python float: finite values print with two decimals,
infinities print `inf` / `-inf`, NaN prints `nan` (sign dropped). -/
def pyFormat2 : PyFloat → List Char
  | PyFloat.finite neg mag => formatF2 neg mag
  | PyFloat.infty neg => if neg then ['-','i','n','f'] else ['i','n','f']
  | PyFloat.nan => ['n','a','n']

/-- `round(x, 2)` on a Python float. -/
def pyRound2 : PyFloat → PyFloat
  | PyFloat.finite neg mag => PyFloat.finite neg ((halfEvenNat (100 * mag) : ℚ) / 100)
  | x => x

/-! ## `norm_amount` (inscrito_controller.py lines 78-92) -/

/-- The separator disambiguation of both string amount normalizers:
one comma and at least one period leave the text as-is; one comma and no
period turn European style into a decimal point; otherwise commas are
stripped. -/
def sepDisambig (raw : List Char) : List Char :=
  if countChar ',' raw = 1 ∧ 1 ≤ countChar '.' raw then raw
  else if countChar ',' raw = 1 ∧ countChar '.' raw = 0 then
    (raw.filter (fun c => c != '.')).map (fun c => if c == ',' then '.' else c)
  else raw.filter (fun c => c != ',')

/-- `f"{float(raw):.2f}"` wrapped in the `try`: `none` on `ValueError`. -/
def amountResult : Option PyFloat → Option (List Char)
  | none => none
  | some pf => some (pyFormat2 pf)

/-- Currency-marker stripping of `norm_amount`:
`s.strip().upper().replace("S/.", "").replace("S/", "").replace("SOLES", "").strip()`. -/
def normAmountClean (l : List Char) : List Char :=
  stripWS (replaceSub (cs "SOLES") []
    (replaceSub (cs "S/") [] (replaceSub (cs "S/.") [] ((stripWS l).map toUpperA))))

def norm_amountL (s : Option (List Char)) : Option (List Char) :=
  match s with
  | none => none
  | some l =>
    if l.isEmpty then none
    else amountResult (parsePyFloat (sepDisambig (normAmountClean l)))

def norm_amount (s : Option String) : Option String :=
  (norm_amountL (s.map String.data)).map String.mk

/-! ## `_norm_amount` (observado_controller.py lines 53-74): same algorithm
except no initial strip and all space characters are removed. -/

def observadoClean (l : List Char) : List Char :=
  stripWS ((replaceSub (cs "SOLES") []
    (replaceSub (cs "S/") [] (replaceSub (cs "S/.") [] (l.map toUpperA)))).filter
      (fun c => c != ' '))

def observado_norm_amountL (s : Option (List Char)) : Option (List Char) :=
  match s with
  | none => none
  | some l =>
    if l.isEmpty then none
    else amountResult (parsePyFloat (sepDisambig (observadoClean l)))

def observado_norm_amount (s : Option String) : Option String :=
  (observado_norm_amountL (s.map String.data)).map String.mk

/-! ## `_to_float_2` (tachado_controller.py lines 34-53) -/

def dropWhileLen (p : Char → Bool) :
    ∀ l : List Char, (l.dropWhile p).length ≤ l.length := by
  intro l
  induction l with
  | nil => simp [List.dropWhile]
  | cons c l ih =>
    by_cases h : p c
    · simp [List.dropWhile, h]
      omega
    · simp [List.dropWhile, h]

/-- Maximal runs of digits, as found by `re.findall(r"\d+", s)`. -/
def digitGroups (l : List Char) : List (List Char) :=
  match l with
  | [] => []
  | c :: rest =>
    if isDig c then
      (c :: rest.takeWhile isDig) :: digitGroups (rest.dropWhile isDig)
    else digitGroups rest
  termination_by l.length
  decreasing_by
  all_goals simp only [List.length_cons]
  all_goals exact Nat.lt_succ_of_le (by first | exact dropWhileLen isDig _ | exact Nat.le_refl _)

def to_float_2 : Option (List Char) → PyFloat
  | none => PyFloat.finite false 0
  | some monto =>
    if monto.isEmpty then PyFloat.finite false 0
    else
      let s1 := stripWS monto
      let s2 := replaceSub (cs "SOLes") [] (replaceSub (cs "soles") []
        (replaceSub (cs "s/.") (cs "s/") (replaceSub (cs "S/.") (cs "S/") s1)))
      let s3 := s2.filter (fun c => isDig c || c == ',' || c == '.')
      let s4 := if countChar ',' s3 = 1 ∧ countChar '.' s3 = 0 then
          s3.map (fun c => if c == ',' then '.' else c)
        else s3
      let s5 := if 1 < countChar '.' s4 then
          match digitGroups s4 with
          | p0 :: p1 :: _ => p0 ++ '.' :: p1
          | _ => s4
        else s4
      match parsePyFloat s5 with
      | none => PyFloat.finite false 0
      | some pf => pyRound2 pf

def to_float_2S (s : Option String) : PyFloat :=
  to_float_2 (s.map String.data)

/-! ## Date normalization (`norm_date_ddmmyyyy`, inscrito_controller.py
lines 94-119; `_norm_date_ddmmyyyy`, observado_controller.py lines 76-106;
the two functions are character-for-character identical).

The two regexes are embedded directly, with Python `re` leftmost-match
semantics and greedy backtracking.  ASCII `\d` and `\s` are modelled. -/

/-- Letter class `[A-Za-zÁÉÍÓÚáéíóú]` of the long-form pattern. -/
def isSpLetter (c : Char) : Bool :=
  (65 ≤ c.toNat && c.toNat ≤ 90) || (97 ≤ c.toNat && c.toNat ≤ 122) ||
  c == 'Á' || c == 'É' || c == 'Í' || c == 'Ó' || c == 'Ú' ||
  c == 'á' || c == 'é' || c == 'í' || c == 'ó' || c == 'ú'

/-- Exactly `k` decimal digits (`\d{k}` as a building block). -/
def takeDigits : Nat → List Char → Option (List Char × List Char)
  | 0, l => some ([], l)
  | _ + 1, [] => none
  | k + 1, c :: r =>
    if isDig c then (takeDigits k r).map (fun g => (c :: g.1, g.2)) else none

/-- `\s+` (greedy; every use in the patterns is followed by a non-space
token, so maximal munch is exact). -/
def skipWS1 : List Char → Option (List Char)
  | c :: r => if isSpaceA c then some (r.dropWhile isSpaceA) else none
  | [] => none

/-- Literal `de` under `re.IGNORECASE`. -/
def litDe : List Char → Option (List Char)
  | a :: b :: r => if toLowerA a == 'd' && toLowerA b == 'e' then some r else none
  | _ => none

/-- `([A-Za-zÁÉÍÓÚáéíóú]+)` (greedy; the following token is `\s`, disjoint
from the letter class, so maximal munch is exact). -/
def takeLetters (l : List Char) : Option (List Char × List Char) :=
  let g := l.takeWhile isSpLetter
  if g.isEmpty then none else some (g, l.drop g.length)

/-- The long-form pattern tail after the day group. -/
def spTail (d r : List Char) : Option (List Char × List Char × List Char) := do
  let r ← skipWS1 r
  let r ← litDe r
  let r ← skipWS1 r
  let (mname, r) ← takeLetters r
  let r ← skipWS1 r
  let r ← litDe r
  let r ← skipWS1 r
  let (y, _) ← takeDigits 4 r
  pure (d, mname, y)

/-- One anchored attempt of
`(\d{1,2})\s+de\s+([A-Za-zÁÉÍÓÚáéíóú]+)\s+de\s+(\d{4})`
(day group greedy: two digits first, then one). -/
def spTryAt (l : List Char) : Option (List Char × List Char × List Char) :=
  (match takeDigits 2 l with
   | some (d, r) => spTail d r
   | none => none) <|>
  (match takeDigits 1 l with
   | some (d, r) => spTail d r
   | none => none)

/-- `re.search` of the long-form pattern: leftmost successful start. -/
def searchSpanish : List Char → Option (List Char × List Char × List Char)
  | [] => none
  | c :: rest => spTryAt (c :: rest) <|> searchSpanish rest

/-- Separator class `[\/\-. ]` of `_DATE_RX`. -/
def isDateSep (c : Char) : Bool := c == '/' || c == '-' || c == '.' || c == ' '

def takeSep : List Char → Option (List Char)
  | c :: r => if isDateSep c then some r else none
  | [] => none

/-- `(\d{2,4})` greedy: four digits, then three, then two. -/
def numTailY (r : List Char) : Option (List Char) :=
  ((takeDigits 4 r) <|> (takeDigits 3 r) <|> (takeDigits 2 r)).map (fun g => g.1)

/-- The month-and-year tail of `_DATE_RX` after the day group and its
separator (month group greedy: two digits first, then one). -/
def numTailM (d r : List Char) : Option (List Char × List Char × List Char) :=
  (do
    let (m, r1) ← takeDigits 2 r
    let r2 ← takeSep r1
    let y ← numTailY r2
    pure (d, m, y)) <|>
  (do
    let (m, r1) ← takeDigits 1 r
    let r2 ← takeSep r1
    let y ← numTailY r2
    pure (d, m, y))

/-- One anchored attempt of `(\d{1,2})[\/\-. ](\d{1,2})[\/\-. ](\d{2,4})`. -/
def numTryAt (l : List Char) : Option (List Char × List Char × List Char) :=
  (do
    let (d, r1) ← takeDigits 2 l
    let r2 ← takeSep r1
    numTailM d r2) <|>
  (do
    let (d, r1) ← takeDigits 1 l
    let r2 ← takeSep r1
    numTailM d r2)

/-- `_DATE_RX.search`: leftmost successful start. -/
def searchNum : List Char → Option (List Char × List Char × List Char)
  | [] => none
  | c :: rest => numTryAt (c :: rest) <|> searchNum rest

/-- `_MONTHS` (both controllers): the twelve Spanish month names, with
`septiembre` and `setiembre` both mapping to 9. -/
def monthsTable : List (String × Nat) :=
  [("enero", 1), ("febrero", 2), ("marzo", 3), ("abril", 4), ("mayo", 5),
   ("junio", 6), ("julio", 7), ("agosto", 8), ("septiembre", 9),
   ("setiembre", 9), ("octubre", 10), ("noviembre", 11), ("diciembre", 12)]

/-- `_MONTHS.get(month_name.lower(), None)`. -/
def monthNum (name : List Char) : Option Nat :=
  monthsTable.lookup (String.mk (name.map toLowerA))

def isLeap (y : Nat) : Bool := y % 4 == 0 && (y % 100 != 0 || y % 400 == 0)

def daysInMonth (y m : Nat) : Nat :=
  if m = 2 then (if isLeap y then 29 else 28)
  else if m = 4 ∨ m = 6 ∨ m = 9 ∨ m = 11 then 30
  else 31

/-- `datetime(y, m, d)` succeeds exactly on these values
(`datetime.MINYEAR = 1`, `MAXYEAR = 9999`). -/
def validDate (y m d : Nat) : Bool :=
  1 ≤ y && y ≤ 9999 && 1 ≤ m && m ≤ 12 && 1 ≤ d && d ≤ daysInMonth y m

/-- `datetime(y, m, d).strftime("%d/%m/%Y")`: day and month zero-padded to
two digits; the year is printed by glibc's `%Y` without padding. -/
def fmtDate (y m d : Nat) : List Char :=
  pad2 d ++ '/' :: pad2 m ++ '/' :: natDigits y

/-- The long-Spanish-form branch of the date normalizer (regex match, month
lookup, calendar validation); `none` means the code falls through to the
numeric pattern. -/
def spanishResult (l : List Char) : Option (List Char) :=
  match searchSpanish l with
  | none => none
  | some (dS, name, yS) =>
    match monthNum name with
    | none => none
    | some m =>
      let y := digitsToNat yS
      let d := digitsToNat dS
      if validDate y m d then some (fmtDate y m d) else none

/-- The `_DATE_RX` branch: two-digit years are prefixed with `'20'` when
below 50 and `'19'` otherwise, then the values are calendar-validated. -/
def numericBranch (l : List Char) : Option (List Char) :=
  match searchNum l with
  | none => none
  | some (dS, mS, yS) =>
    let y0 := digitsToNat yS
    let y := if yS.length = 2 then (if y0 < 50 then 2000 + y0 else 1900 + y0) else y0
    let m := digitsToNat mS
    let d := digitsToNat dS
    if validDate y m d then some (fmtDate y m d) else none

def norm_date_ddmmyyyyL : Option (List Char) → Option (List Char)
  | none => none
  | some l =>
    if l.isEmpty then none
    else
      match spanishResult l with
      | some r => some r
      | none => numericBranch l

def norm_date_ddmmyyyy (s : Option String) : Option String :=
  (norm_date_ddmmyyyyL (s.map String.data)).map String.mk

/-! ## JSON values and a model of `json.loads`

Numbers are modelled exactly as rationals (Python's int/float distinction
is immaterial to the claims).  `NaN` / `Infinity` / `-Infinity`, which
Python's `json` accepts by default, get their own constructors.  Objects
are association lists built with last-key-wins insertion, matching dict
construction. -/

inductive JVal where
  | null
  | bool (b : Bool)
  | num (q : ℚ)
  | str (s : String)
  | arr (elems : List JVal)
  | obj (fields : List (String × JVal))
  | nanV
  | infV (neg : Bool)

/-- Dict insertion: replace in place if the key exists, append otherwise. -/
def objInsert (k : String) (v : JVal) (fs : List (String × JVal)) :
    List (String × JVal) :=
  if (fs.lookup k).isSome then fs.map (fun p => if p.1 == k then (k, v) else p)
  else fs ++ [(k, v)]

/-- JSON whitespace (exactly space, tab, newline, carriage return). -/
def jskip (l : List Char) : List Char :=
  l.dropWhile (fun c => c == ' ' || c == '\t' || c == '\n' || c == '\r')

def hexVal (c : Char) : Option Nat :=
  if 48 ≤ c.toNat && c.toNat ≤ 57 then some (c.toNat - 48)
  else if 97 ≤ c.toNat && c.toNat ≤ 102 then some (c.toNat - 87)
  else if 65 ≤ c.toNat && c.toNat ≤ 70 then some (c.toNat - 55)
  else none

/-- JSON string body after the opening quote: plain characters (no raw
control characters), standard escapes, `\uXXXX`. -/
def parseStr : Nat → List Char → List Char → Option (String × List Char)
  | 0, _, _ => none
  | _ + 1, _, [] => none
  | fuel + 1, acc, c :: r =>
    if c = '"' then some (String.mk acc.reverse, r)
    else if c = '\\' then
      match r with
      | [] => none
      | e :: r2 =>
        if e = '"' then parseStr fuel ('"' :: acc) r2
        else if e = '\\' then parseStr fuel ('\\' :: acc) r2
        else if e = '/' then parseStr fuel ('/' :: acc) r2
        else if e = 'b' then parseStr fuel ('\x08' :: acc) r2
        else if e = 'f' then parseStr fuel ('\x0c' :: acc) r2
        else if e = 'n' then parseStr fuel ('\n' :: acc) r2
        else if e = 'r' then parseStr fuel ('\r' :: acc) r2
        else if e = 't' then parseStr fuel ('\t' :: acc) r2
        else if e = 'u' then
          match r2 with
          | h1 :: h2 :: h3 :: h4 :: r3 =>
            match hexVal h1, hexVal h2, hexVal h3, hexVal h4 with
            | some a, some b, some cᵥ, some d =>
              parseStr fuel (Char.ofNat (4096 * a + 256 * b + 16 * cᵥ + d) :: acc) r3
            | _, _, _, _ => none
          | _ => none
        else none
    else if c.toNat < 32 then none
    else parseStr fuel (c :: acc) r

/-- A digit run with its value and length (no underscores in JSON). -/
def digitsVal (l : List Char) : Nat × Nat × List Char :=
  let ds := l.takeWhile isDig
  (digitsToNat ds, ds.length, l.drop ds.length)

/-- A JSON number per the RFC grammar: `-?(0|[1-9][0-9]*)(\.[0-9]+)?`
with optional exponent.  A partial fraction or exponent (`"1."`, `"1e"`)
is left unconsumed, as Python's scanner does. -/
def parseJNum (l : List Char) : Option (ℚ × List Char) :=
  let (neg, l1) := match l with | '-' :: r => (true, r) | r => (false, r)
  match l1 with
  | [] => none
  | c :: r =>
    if ¬ (isDig c) then none
    else
      let (i, r1) :=
        if c = '0' then ((0 : Nat), r)
        else let (v, _, rr) := digitsVal (c :: r); (v, rr)
      let (f, fk, r2) :=
        match r1 with
        | '.' :: rf =>
          let (v, k, rr) := digitsVal rf
          if k = 0 then (0, 0, r1) else (v, k, rr)
        | _ => ((0 : Nat), (0 : Nat), r1)
      let (eneg, e, r3) :=
        match r2 with
        | 'e' :: rE | 'E' :: rE =>
          let (sgn, rE2) :=
            match rE with
            | '-' :: rr => (true, rr)
            | '+' :: rr => (false, rr)
            | rr => (false, rr)
          let (v, k, rr) := digitsVal rE2
          if k = 0 then (false, (0 : Nat), r2) else (sgn, v, rr)
        | _ => (false, (0 : Nat), r2)
      let mag := floatMag i f fk eneg e
      some (if neg then -mag else mag, r3)

/-- Parser task: a whole value, the members of an object after `{`, or the
elements of an array after `[` (accumulators carried along). -/
inductive PTask where
  | val
  | objRest (acc : List (String × JVal))
  | arrRest (acc : List JVal)

/-- The `json.loads` scanner, structurally recursive on fuel: objects,
arrays, strings, `true` / `false` / `null`, `NaN` / `Infinity` /
`-Infinity`, and numbers. -/
def parseJ : Nat → PTask → List Char → Option (JVal × List Char)
  | 0, _, _ => none
  | fuel + 1, PTask.val, l0 =>
    (match jskip l0 with
     | '{' :: r =>
       (match jskip r with
        | '}' :: r2 => some (JVal.obj [], r2)
        | _ => parseJ fuel (PTask.objRest []) r)
     | '[' :: r =>
       (match jskip r with
        | ']' :: r2 => some (JVal.arr [], r2)
        | _ => parseJ fuel (PTask.arrRest []) r)
     | '"' :: r => (parseStr (r.length + 1) [] r).map (fun p => (JVal.str p.1, p.2))
     | 't' :: 'r' :: 'u' :: 'e' :: r => some (JVal.bool true, r)
     | 'f' :: 'a' :: 'l' :: 's' :: 'e' :: r => some (JVal.bool false, r)
     | 'n' :: 'u' :: 'l' :: 'l' :: r => some (JVal.null, r)
     | 'N' :: 'a' :: 'N' :: r => some (JVal.nanV, r)
     | 'I' :: 'n' :: 'f' :: 'i' :: 'n' :: 'i' :: 't' :: 'y' :: r => some (JVal.infV false, r)
     | '-' :: 'I' :: 'n' :: 'f' :: 'i' :: 'n' :: 'i' :: 't' :: 'y' :: r => some (JVal.infV true, r)
     | l => (parseJNum l).map (fun p => (JVal.num p.1, p.2)))
  | fuel + 1, PTask.objRest acc, l =>
    (match jskip l with
     | '"' :: r =>
       (match parseStr (r.length + 1) [] r with
        | none => none
        | some (k, r1) =>
          match jskip r1 with
          | ':' :: r2 =>
            (match parseJ fuel PTask.val r2 with
             | none => none
             | some (v, r3) =>
               let acc2 := objInsert k v acc
               match jskip r3 with
               | ',' :: r4 => parseJ fuel (PTask.objRest acc2) r4
               | '}' :: r4 => some (JVal.obj acc2, r4)
               | _ => none)
          | _ => none)
     | _ => none)
  | fuel + 1, PTask.arrRest acc, l =>
    (match parseJ fuel PTask.val l with
     | none => none
     | some (v, r) =>
       match jskip r with
       | ',' :: r2 => parseJ fuel (PTask.arrRest (acc ++ [v])) r2
       | ']' :: r2 => some (JVal.arr (acc ++ [v]), r2)
       | _ => none)

def parseJVal (fuel : Nat) (l : List Char) : Option (JVal × List Char) :=
  parseJ fuel PTask.val l

/-- `json.loads`: one value, then nothing but whitespace (`Extra data`
otherwise).  `none` models a raised `JSONDecodeError`. -/
def jsonLoads (l : List Char) : Option JVal :=
  match parseJVal (l.length + 2) l with
  | some (v, r) => if (jskip r).isEmpty then some v else none
  | none => none

/-- `txt.find(c)`: index of the first occurrence, `none` for Python's
`-1`. -/
def firstIdx (c : Char) : List Char → Option Nat
  | [] => none
  | x :: r => if x == c then some 0 else (firstIdx c r).map (· + 1)

/-- `txt.rfind(c)`: index of the last occurrence. -/
def lastIdx (c : Char) (l : List Char) : Option Nat :=
  (firstIdx c l.reverse).map (fun k => l.length - 1 - k)

/-- `_repair_json_block` (inscrito_controller.py lines 121-128 and
observado_controller.py lines 108-115, identical): direct parse; on
failure, parse the slice from the first `{` to the last `}` inclusive;
re-raise (`none`) if either brace is absent or the slice fails too. -/
def repair_json_block (l : List Char) : Option JVal :=
  match jsonLoads l with
  | some v => some v
  | none =>
    match firstIdx '{' l, lastIdx '}' l with
    | some i, some j => jsonLoads ((l.drop i).take (j + 1 - i))
    | _, _ => none

def repair_json_blockS (s : String) : Option JVal := repair_json_block s.data

/-! ## Pydantic output models (inscrito_controller.py lines 55-69,
observado_controller.py lines 43-50) and the per-pipeline response
post-processing. -/

structure AnotacionData where
  anioTitulo : Option String
  numeroTitulo : Option String
  oficinaRegistral : Option String
  seccionRegistral : Option String
  numeroPartida : Option String
  fechaPresentacion : Option String
  montoInscripcion : Option String
  montoDevolucion : Option String
  fechaInscripcion : Option String
  nombreRegistrador : Option String
  deriving DecidableEq, Repr

structure AnotacionOut where
  documentType : String
  data : AnotacionData
  deriving DecidableEq, Repr

structure ObservadoData where
  fechaObservacion : Option String
  fechaVencimiento : Option String
  montoLiquidado : Option String
  deriving DecidableEq, Repr

structure ObservadoOut where
  documentType : String
  data : ObservadoData
  deriving DecidableEq, Repr

/-- Validation of one `Optional[str]` pydantic field from a JSON value:
missing or `null` become `None`; a string passes through; any other value
is a `ValidationError` (modelled as `none`). -/
def optStrField : Option JVal → Option (Option String)
  | none => some none
  | some JVal.null => some none
  | some (JVal.str s) => some (some s)
  | some _ => none

/-- Validation of a `str`-typed field with a literal default. -/
def strFieldD (dflt : String) : Option JVal → Option String
  | none => some dflt
  | some (JVal.str s) => some s
  | some _ => none

/-- `AnotacionData(**fields)`: each field validated, extras dropped. -/
def anotacionDataOfJVal (fs : List (String × JVal)) : Option AnotacionData := do
  let a ← optStrField (fs.lookup "anioTitulo")
  let b ← optStrField (fs.lookup "numeroTitulo")
  let c ← optStrField (fs.lookup "oficinaRegistral")
  let d ← optStrField (fs.lookup "seccionRegistral")
  let e ← optStrField (fs.lookup "numeroPartida")
  let f ← optStrField (fs.lookup "fechaPresentacion")
  let g ← optStrField (fs.lookup "montoInscripcion")
  let h ← optStrField (fs.lookup "montoDevolucion")
  let i ← optStrField (fs.lookup "fechaInscripcion")
  let j ← optStrField (fs.lookup "nombreRegistrador")
  pure ⟨a, b, c, d, e, f, g, h, i, j⟩

/-- `AnotacionOut(**raw_data)`: `none` models a raised `ValidationError`
(or a `TypeError` when the parsed JSON is not an object). -/
def anotacionOutOfJVal : JVal → Option AnotacionOut
  | JVal.obj fs => do
    let dt ← strFieldD "anotacion_inscripcion" (fs.lookup "documentType")
    let d ←
      match fs.lookup "data" with
      | none => some ⟨none, none, none, none, none, none, none, none, none, none⟩
      | some (JVal.obj g) => anotacionDataOfJVal g
      | some _ => none
    pure ⟨dt, d⟩
  | _ => none

/-- The normalization block of `extract_anotacion`
(inscrito_controller.py lines 166-171). -/
def anotacion_normalize (d : AnotacionData) : AnotacionData :=
  { d with
    montoInscripcion := norm_amount d.montoInscripcion
    montoDevolucion := norm_amount d.montoDevolucion
    fechaPresentacion := norm_date_ddmmyyyy d.fechaPresentacion
    fechaInscripcion := norm_date_ddmmyyyy d.fechaInscripcion }

/-- Response construction of `extract_anotacion` after the model call:
JSON repair, pydantic validation, then field normalization. -/
def extract_anotacion_process (txt : String) : Option AnotacionOut := do
  let raw ← repair_json_blockS txt
  let v ← anotacionOutOfJVal raw
  pure { v with data := anotacion_normalize v.data }

def observadoDataOfJVal (fs : List (String × JVal)) : Option ObservadoData := do
  let a ← optStrField (fs.lookup "fechaObservacion")
  let b ← optStrField (fs.lookup "fechaVencimiento")
  let c ← optStrField (fs.lookup "montoLiquidado")
  pure ⟨a, b, c⟩

def observadoOutOfJVal : JVal → Option ObservadoOut
  | JVal.obj fs => do
    let dt ← strFieldD "esquela_observacion" (fs.lookup "documentType")
    let d ←
      match fs.lookup "data" with
      | none => some ⟨none, none, none⟩
      | some (JVal.obj g) => observadoDataOfJVal g
      | some _ => none
    pure ⟨dt, d⟩
  | _ => none

/-- The normalization block of `extract_observado`
(observado_controller.py lines 154-156). -/
def observado_normalize (d : ObservadoData) : ObservadoData :=
  { d with
    fechaObservacion := norm_date_ddmmyyyy d.fechaObservacion
    fechaVencimiento := norm_date_ddmmyyyy d.fechaVencimiento
    montoLiquidado := observado_norm_amount d.montoLiquidado }

def extract_observado_process (txt : String) : Option ObservadoOut := do
  let raw ← repair_json_blockS txt
  let v ← observadoOutOfJVal raw
  pure { v with data := observado_normalize v.data }

/-! ## Liquidado: `setdefault`-based sanitation
(liquidado_controller.py lines 82-89); no normalization of amounts or
dates takes place in this pipeline. -/

/-- `d.setdefault(k, v)`: insert only when the key is absent. -/
def setdefault (d : List (String × JVal)) (k : String) (v : JVal) :
    List (String × JVal) :=
  if (d.lookup k).isSome then d else d ++ [(k, v)]

def liquidadoFields : List String :=
  ["anioTitulo", "numeroTitulo", "oficinaRegistral", "seccionRegistral",
   "fechaPresentacion", "horaPresentacion", "fechaVencimiento",
   "fechaLiquidacion", "ultimoDiaPago", "derechosRegistrales", "pagoCuenta",
   "diferenciaPorPagar", "nombreRegistrador"]

/-- The `data["data"].setdefault(k, None)` loop over the fixed field
list. -/
def liquidado_defaults (d : List (String × JVal)) : List (String × JVal) :=
  liquidadoFields.foldl (fun acc k => setdefault acc k JVal.null) d

/-- The whole sanitation step of `extract_liquidado`: top-level
`setdefault`s for `documentType` and `data`, then the field loop.  `none`
models the `AttributeError` (hence HTTP 500) hit when the model returned a
non-object `data`. -/
def extract_liquidado_sanitize (top : List (String × JVal)) :
    Option (List (String × JVal)) :=
  let top1 := setdefault top "documentType" (JVal.str "esquela_liquidacion")
  let top2 := setdefault top1 "data" (JVal.obj [])
  match top2.lookup "data" with
  | some (JVal.obj d) => some (objInsert "data" (JVal.obj (liquidado_defaults d)) top2)
  | _ => none

/-! ## Tacha: response normalization (tachado_controller.py lines 84-98). -/

/-- Python truthiness on JSON-decoded values. -/
def pyFalsy : JVal → Bool
  | JVal.null => true
  | JVal.bool b => !b
  | JVal.num q => q == 0
  | JVal.str s => s == ""
  | JVal.arr l => l.isEmpty
  | JVal.obj l => l.isEmpty
  | JVal.nanV => false
  | JVal.infV _ => false

/-- `_to_float_2` applied to a value read out of the decoded JSON:
absent and falsy values short-circuit to `0.0`; strings are parsed; a
truthy non-string raises `AttributeError` (modelled as `none`, surfacing
as HTTP 500). -/
def to_float_2_jval : Option JVal → Option PyFloat
  | none => some (PyFloat.finite false 0)
  | some (JVal.str s) => some (to_float_2 (some s.data))
  | some w => if pyFalsy w then some (PyFloat.finite false 0) else none

/-- The `data` object of the tacha response: `numeroTitulo` passed through
`numero if numero else None`, `derechosPorDevolver` through
`_to_float_2`. -/
def extract_tachado_normalize (d : List (String × JVal)) :
    Option (JVal × PyFloat) :=
  match to_float_2_jval (d.lookup "derechosPorDevolver") with
  | none => none
  | some f =>
    some (match d.lookup "numeroTitulo" with
          | none => JVal.null
          | some v => if pyFalsy v then JVal.null else v,
          f)

/-- The keys of the fresh `data` dict built by `extract_tachado`. -/
def tachadoResponseKeys : List String := ["numeroTitulo", "derechosPorDevolver"]

/-! ## Content-type gate, shared verbatim by all four controllers
(inscrito 135-138, liquidado 51-55, observado 122-125, tachado 56-59). -/

def lowerL (l : List Char) : List Char := l.map toLowerA

def is_pdf (ct : String) : Bool := lowerL ct.data == cs "application/pdf"

def is_img (ct : String) : Bool := (cs "image/").isPrefixOf (lowerL ct.data)

inductive Effect where
  | renderPdf
  | modelCall
  deriving DecidableEq, Repr

inductive StartOutcome where
  | httpError (code : Nat)
  | proceedToModel
  deriving DecidableEq, Repr

/-- The controller prologue before any response processing: reject
unsupported content types with HTTP 400, render PDFs (500 when zero pages
come back), then move on to the model call.  The first component lists the
external calls performed, in order. -/
def controller_start (ct : String) (renderedPages : Nat) :
    List Effect × StartOutcome :=
  if ¬ (is_pdf ct || is_img ct) then ([], StartOutcome.httpError 400)
  else if is_pdf ct then
    if renderedPages = 0 then ([Effect.renderPdf], StartOutcome.httpError 500)
    else ([Effect.renderPdf, Effect.modelCall], StartOutcome.proceedToModel)
  else ([Effect.modelCall], StartOutcome.proceedToModel)

def extract_anotacion_start (ct : String) (renderedPages : Nat) :
    List Effect × StartOutcome := controller_start ct renderedPages

def extract_liquidado_start (ct : String) (renderedPages : Nat) :
    List Effect × StartOutcome := controller_start ct renderedPages

def extract_observado_start (ct : String) (renderedPages : Nat) :
    List Effect × StartOutcome := controller_start ct renderedPages

def extract_tachado_start (ct : String) (renderedPages : Nat) :
    List Effect × StartOutcome := controller_start ct renderedPages

/-! ## Canonical output shapes

`isCanonAmt`: an optional minus sign, at least one digit, a point, exactly
two digits — the "fixed two-decimal string" format of the spec.
`isDateShape`: two digits, slash, two digits, slash, at least one digit
(the year may print with fewer than four digits, see `fmtDate`).
`isDdmmyyyy`: the strict `dd/mm/yyyy` shape with a four-digit year. -/

def isCanonAmtCore (l : List Char) : Bool :=
  let ds := l.takeWhile isDig
  (!ds.isEmpty) &&
    (match l.drop ds.length with
     | ['.', a, b] => isDig a && isDig b
     | _ => false)

def isCanonAmt (l : List Char) : Bool :=
  isCanonAmtCore (if l.head? = some '-' then l.tail else l)

def isCanonAmtS (s : String) : Bool := isCanonAmt s.data

def isDateShape (l : List Char) : Bool :=
  match l with
  | a :: b :: '/' :: c :: d :: '/' :: y =>
    isDig a && isDig b && isDig c && isDig d && (!y.isEmpty) && y.all isDig
  | _ => false

def isDateShapeS (s : String) : Bool := isDateShape s.data

def isDdmmyyyy (l : List Char) : Bool :=
  match l with
  | [a, b, '/', c, d, '/', e, f, g, h] =>
    isDig a && isDig b && isDig c && isDig d &&
    isDig e && isDig f && isDig g && isDig h
  | _ => false

def isDdmmyyyyS (s : String) : Bool := isDdmmyyyy s.data

/-! ## Digit-rendering lemmas -/

theorem isDig_digitChar {d : Nat} (h : d < 10) : isDig (digitChar d) = true := by
  interval_cases d <;> decide

theorem natDigits_of_lt {n : Nat} (h : n < 10) : natDigits n = [digitChar n] := by
  unfold natDigits
  rw [natDigitsAux_succ, if_pos h]

theorem natDigits_of_ge {n : Nat} (h : ¬ n < 10) :
    natDigits n = natDigits (n / 10) ++ [digitChar (n % 10)] := by
  unfold natDigits
  rw [natDigitsAux_succ, if_neg h]
  have hlt : n / 10 < n := Nat.div_lt_self (by omega) (by omega)
  rw [natDigitsAux_irrel (n / 10) n (n / 10 + 1) hlt (by omega)]

theorem natDigits_ne_nil (n : Nat) : natDigits n ≠ [] := by
  by_cases h : n < 10
  · rw [natDigits_of_lt h]
    simp
  · rw [natDigits_of_ge h]
    simp

theorem natDigits_digits (n : Nat) : ∀ c ∈ natDigits n, isDig c = true := by
  induction n using Nat.strong_induction_on with
  | _ n ih =>
    by_cases h : n < 10
    · rw [natDigits_of_lt h]
      intro c hc
      rw [List.mem_singleton] at hc
      subst hc
      exact isDig_digitChar h
    · rw [natDigits_of_ge h]
      intro c hc
      rw [List.mem_append] at hc
      rcases hc with hc | hc
      · exact ih (n / 10) (Nat.div_lt_self (by omega) (by omega)) c hc
      · rw [List.mem_singleton] at hc
        subst hc
        exact isDig_digitChar (Nat.mod_lt _ (by omega))

theorem natDigits_len_two {n : Nat} (h1 : 10 ≤ n) (h2 : n < 100) :
    (natDigits n).length = 2 := by
  rw [natDigits_of_ge (by omega)]
  rw [natDigits_of_lt (by omega : n / 10 < 10)]
  simp

theorem pad2_shape {n : Nat} (h : n < 100) :
    ∃ a b, pad2 n = [a, b] ∧ isDig a = true ∧ isDig b = true := by
  unfold pad2
  by_cases h1 : n < 10
  · refine ⟨'0', digitChar n, ?_, rfl, isDig_digitChar h1⟩
    simp [h1]
  · rw [if_neg h1]
    have hlen := natDigits_len_two (by omega) h
    rcases List.length_eq_two.mp hlen with ⟨a, b, hab⟩
    have hd := natDigits_digits n
    rw [hab] at hd
    exact ⟨a, b, hab, hd a (by simp), hd b (by simp)⟩

/-! ## Shape of every formatted amount -/

theorem takeWhile_digits_dot (ds t : List Char) (h : ∀ c ∈ ds, isDig c = true) :
    (ds ++ '.' :: t).takeWhile isDig = ds := by
  induction ds with
  | nil =>
    have hdot : isDig '.' = false := rfl
    simp [List.takeWhile_cons, hdot]
  | cons c rest ih =>
    have hc : isDig c = true := h c (by simp)
    have ihr := ih (fun x hx => h x (by simp [hx]))
    simp [List.takeWhile_cons, hc, ihr]

theorem isCanonAmtCore_build (ds : List Char) (a b : Char) (hne : ds ≠ [])
    (hall : ∀ c ∈ ds, isDig c = true) (ha : isDig a = true) (hb : isDig b = true) :
    isCanonAmtCore (ds ++ '.' :: [a, b]) = true := by
  unfold isCanonAmtCore
  have h1 : (ds ++ '.' :: [a, b]).takeWhile isDig = ds := takeWhile_digits_dot ds [a, b] hall
  simp only [h1, List.drop_left]
  cases ds with
  | nil => exact absurd rfl hne
  | cons x xs => simp [ha, hb]

theorem isCanonAmt_formatF2 (neg : Bool) (mag : ℚ) :
    isCanonAmt (formatF2 neg mag) = true := by
  unfold formatF2
  set n := halfEvenNat (100 * mag) with hn
  obtain ⟨a, b, hab, ha, hb⟩ := pad2_shape (Nat.mod_lt n (by omega) : n % 100 < 100)
  obtain ⟨c, rest, hcons⟩ := List.exists_cons_of_ne_nil (natDigits_ne_nil (n / 100))
  have hc : isDig c = true := by
    have := natDigits_digits (n / 100)
    rw [hcons] at this
    exact this c (by simp)
  have hcne : c ≠ '-' := by
    intro he
    rw [he] at hc
    exact absurd hc (by decide)
  cases neg with
  | false =>
    simp only [Bool.false_eq_true, if_false, List.nil_append]
    unfold isCanonAmt
    rw [hcons, hab]
    simp only [List.cons_append, List.head?_cons]
    rw [if_neg (by simpa using hcne)]
    have := isCanonAmtCore_build (c :: rest) a b (by simp)
      (by rw [← hcons]; exact natDigits_digits (n / 100)) ha hb
    simpa using this
  | true =>
    simp only [if_true]
    unfold isCanonAmt
    rw [hcons, hab]
    simp only [List.cons_append, List.head?_cons, List.tail_cons, if_pos rfl]
    have := isCanonAmtCore_build (c :: rest) a b (by simp)
      (by rw [← hcons]; exact natDigits_digits (n / 100)) ha hb
    simpa using this

/-- Every possible output of the format step: canonical two-decimal
string, or a non-finite rendering. -/
theorem amountResult_shape (o : Option PyFloat) :
    amountResult o = none ∨
    ∃ t, amountResult o = some t ∧
      (isCanonAmt t = true ∨ t = cs "inf" ∨ t = cs "-inf" ∨ t = cs "nan") := by
  rcases o with _ | pf
  · exact Or.inl rfl
  · right
    rcases pf with ⟨neg, mag⟩ | neg | _
    · exact ⟨_, rfl, Or.inl (isCanonAmt_formatF2 neg mag)⟩
    · cases neg
      · exact ⟨_, rfl, Or.inr (Or.inl rfl)⟩
      · exact ⟨_, rfl, Or.inr (Or.inr (Or.inl rfl))⟩
    · exact ⟨_, rfl, Or.inr (Or.inr (Or.inr rfl))⟩

theorem norm_amountL_shape (o : Option (List Char)) :
    norm_amountL o = none ∨
    ∃ t, norm_amountL o = some t ∧
      (isCanonAmt t = true ∨ t = cs "inf" ∨ t = cs "-inf" ∨ t = cs "nan") := by
  rcases o with _ | l
  · exact Or.inl rfl
  · by_cases he : l.isEmpty
    · left
      simp [norm_amountL, he]
    · have heq : norm_amountL (some l) =
          amountResult (parsePyFloat (sepDisambig (normAmountClean l))) := by
        simp [norm_amountL, he]
      rw [heq]
      exact amountResult_shape _

theorem observado_norm_amountL_shape (o : Option (List Char)) :
    observado_norm_amountL o = none ∨
    ∃ t, observado_norm_amountL o = some t ∧
      (isCanonAmt t = true ∨ t = cs "inf" ∨ t = cs "-inf" ∨ t = cs "nan") := by
  rcases o with _ | l
  · exact Or.inl rfl
  · by_cases he : l.isEmpty
    · left
      simp [observado_norm_amountL, he]
    · have heq : observado_norm_amountL (some l) =
          amountResult (parsePyFloat (sepDisambig (observadoClean l))) := by
        simp [observado_norm_amountL, he]
      rw [heq]
      exact amountResult_shape _

/-- `norm_amount` returns `none` or a canonical / non-finite string. -/
theorem norm_amount_shape (s : Option String) :
    norm_amount s = none ∨
    ∃ t, norm_amount s = some t ∧
      (isCanonAmtS t = true ∨ t = "inf" ∨ t = "-inf" ∨ t = "nan") := by
  rcases norm_amountL_shape (s.map String.data) with h | ⟨t, ht, hp⟩
  · left
    simp [norm_amount, h]
  · right
    refine ⟨String.mk t, by simp [norm_amount, ht], ?_⟩
    rcases hp with h1 | h1 | h1 | h1
    · exact Or.inl h1
    · exact Or.inr (Or.inl (by rw [h1]; rfl))
    · exact Or.inr (Or.inr (Or.inl (by rw [h1]; rfl)))
    · exact Or.inr (Or.inr (Or.inr (by rw [h1]; rfl)))

theorem observado_norm_amount_shape (s : Option String) :
    observado_norm_amount s = none ∨
    ∃ t, observado_norm_amount s = some t ∧
      (isCanonAmtS t = true ∨ t = "inf" ∨ t = "-inf" ∨ t = "nan") := by
  rcases observado_norm_amountL_shape (s.map String.data) with h | ⟨t, ht, hp⟩
  · left
    simp [observado_norm_amount, h]
  · right
    refine ⟨String.mk t, by simp [observado_norm_amount, ht], ?_⟩
    rcases hp with h1 | h1 | h1 | h1
    · exact Or.inl h1
    · exact Or.inr (Or.inl (by rw [h1]; rfl))
    · exact Or.inr (Or.inr (Or.inl (by rw [h1]; rfl)))
    · exact Or.inr (Or.inr (Or.inr (by rw [h1]; rfl)))

/-! ## Shape of every formatted date -/

theorem daysInMonth_le (y m : Nat) : daysInMonth y m ≤ 31 := by
  unfold daysInMonth
  split
  · split <;> omega
  · split <;> omega

theorem validDate_bounds {y m d : Nat} (h : validDate y m d = true) :
    1 ≤ y ∧ m ≤ 12 ∧ d ≤ 31 := by
  simp only [validDate, Bool.and_eq_true, decide_eq_true_eq] at h
  have := daysInMonth_le y m
  omega

theorem isDateShape_fmtDate {y m d : Nat} (hm : m < 100) (hd : d < 100) :
    isDateShape (fmtDate y m d) = true := by
  obtain ⟨a, b, hab, ha, hb⟩ := pad2_shape hd
  obtain ⟨c, e, hce, hc, he⟩ := pad2_shape hm
  unfold fmtDate
  rw [hab, hce]
  simp only [List.cons_append, List.nil_append, isDateShape]
  rw [ha, hb, hc, he]
  have h1 : (natDigits y).isEmpty = false := by
    cases hn : natDigits y with
    | nil => exact absurd hn (natDigits_ne_nil y)
    | cons z zs => rfl
  have h2 : (natDigits y).all isDig = true :=
    List.all_eq_true.mpr (fun z hz => natDigits_digits y z hz)
  simp [h1, h2]

theorem spanishResult_shape (l : List Char) :
    spanishResult l = none ∨
    ∃ y m d, validDate y m d = true ∧ spanishResult l = some (fmtDate y m d) := by
  unfold spanishResult
  rcases searchSpanish l with _ | ⟨dS, name, yS⟩
  · exact Or.inl rfl
  · simp only
    rcases monthNum name with _ | m
    · exact Or.inl rfl
    · simp only
      by_cases hv : validDate (digitsToNat yS) m (digitsToNat dS) = true
      · right
        exact ⟨_, _, _, hv, by rw [if_pos hv]⟩
      · left
        rw [if_neg hv]

theorem numericBranch_shape (l : List Char) :
    numericBranch l = none ∨
    ∃ y m d, validDate y m d = true ∧ numericBranch l = some (fmtDate y m d) := by
  unfold numericBranch
  rcases searchNum l with _ | ⟨dS, mS, yS⟩
  · exact Or.inl rfl
  · simp only
    by_cases hv : validDate
        (if yS.length = 2 then
          (if digitsToNat yS < 50 then 2000 + digitsToNat yS else 1900 + digitsToNat yS)
         else digitsToNat yS) (digitsToNat mS) (digitsToNat dS) = true
    · right
      exact ⟨_, _, _, hv, by rw [if_pos hv]⟩
    · left
      rw [if_neg hv]

theorem norm_date_ddmmyyyyL_shape (o : Option (List Char)) :
    norm_date_ddmmyyyyL o = none ∨
    ∃ t, norm_date_ddmmyyyyL o = some t ∧ isDateShape t = true := by
  rcases o with _ | l
  · exact Or.inl rfl
  · by_cases he : l.isEmpty
    · left
      simp [norm_date_ddmmyyyyL, he]
    · rcases hs : spanishResult l with _ | r
      · have heq : norm_date_ddmmyyyyL (some l) = numericBranch l := by
          simp [norm_date_ddmmyyyyL, he, hs]
        rcases numericBranch_shape l with hn | ⟨y, m, d, hv, hn⟩
        · left
          rw [heq, hn]
        · right
          obtain ⟨_, hm, hd⟩ := validDate_bounds hv
          exact ⟨_, by rw [heq, hn], isDateShape_fmtDate (by omega) (by omega)⟩
      · have heq : norm_date_ddmmyyyyL (some l) = some r := by
          simp [norm_date_ddmmyyyyL, he, hs]
        rcases spanishResult_shape l with hn | ⟨y, m, d, hv, hn⟩
        · rw [hn] at hs
          exact absurd hs (by simp)
        · rw [hn] at hs
          right
          obtain ⟨_, hm, hd⟩ := validDate_bounds hv
          refine ⟨r, heq, ?_⟩
          have : r = fmtDate y m d := by
            injection hs with h
            exact h.symm
          rw [this]
          exact isDateShape_fmtDate (by omega) (by omega)

theorem norm_date_shape (s : Option String) :
    norm_date_ddmmyyyy s = none ∨
    ∃ t, norm_date_ddmmyyyy s = some t ∧ isDateShapeS t = true := by
  rcases norm_date_ddmmyyyyL_shape (s.map String.data) with h | ⟨t, ht, hp⟩
  · left
    simp [norm_date_ddmmyyyy, h]
  · right
    exact ⟨String.mk t, by simp [norm_date_ddmmyyyy, ht], hp⟩

/-! ## Lookup and `setdefault` lemmas (for the liquidado defaulting loop) -/

theorem lookup_append_some {k : String} {v : JVal} :
    ∀ (d e : List (String × JVal)), d.lookup k = some v → (d ++ e).lookup k = some v := by
  intro d e h
  induction d with
  | nil => simp [List.lookup] at h
  | cons p tl ih =>
    rcases p with ⟨a, b⟩
    simp only [List.lookup, List.cons_append] at h ⊢
    cases hk : k == a with
    | true => rw [hk] at h; simpa [hk] using h
    | false => rw [hk] at h; simpa [hk] using ih h

theorem lookup_append_last_isSome (k : String) (v : JVal) :
    ∀ d : List (String × JVal), ((d ++ [(k, v)]).lookup k).isSome = true := by
  intro d
  induction d with
  | nil => simp [List.lookup]
  | cons p tl ih =>
    rcases p with ⟨a, b⟩
    simp only [List.cons_append, List.lookup]
    cases hk : k == a with
    | true => simp
    | false => simp [ih]

theorem setdefault_preserve {d : List (String × JVal)} {k : String} {v : JVal}
    (k' : String) (v' : JVal) (h : d.lookup k = some v) :
    (setdefault d k' v').lookup k = some v := by
  unfold setdefault
  split
  · exact h
  · exact lookup_append_some d [(k', v')] h

theorem setdefault_self_isSome (d : List (String × JVal)) (k : String) (v : JVal) :
    ((setdefault d k v).lookup k).isSome = true := by
  unfold setdefault
  split
  · assumption
  · exact lookup_append_last_isSome k v d

theorem foldl_setdefault_preserve :
    ∀ (ks : List String) (d : List (String × JVal)) {k : String} {v : JVal},
      d.lookup k = some v →
      ((ks.foldl (fun acc f => setdefault acc f JVal.null) d).lookup k) = some v := by
  intro ks
  induction ks with
  | nil => intro d k v h; exact h
  | cons f fs ih =>
    intro d k v h
    exact ih _ (setdefault_preserve f JVal.null h)

theorem foldl_setdefault_isSome
    (ks : List String) (d : List (String × JVal)) {k : String}
    (h : (d.lookup k).isSome = true) :
    ((ks.foldl (fun acc f => setdefault acc f JVal.null) d).lookup k).isSome = true := by
  rcases Option.isSome_iff_exists.mp h with ⟨v, hv⟩
  rw [foldl_setdefault_preserve ks d hv]
  rfl

theorem foldl_setdefault_mem :
    ∀ (ks : List String) (d : List (String × JVal)) {k : String}, k ∈ ks →
      ((ks.foldl (fun acc f => setdefault acc f JVal.null) d).lookup k).isSome = true := by
  intro ks
  induction ks with
  | nil => intro d k h; simp at h
  | cons f fs ih =>
    intro d k h
    rcases List.mem_cons.mp h with h1 | h1
    · subst h1
      exact foldl_setdefault_isSome fs _ (setdefault_self_isSome d k JVal.null)
    · exact ih _ h1

/-- Every schema field is present after the liquidado defaulting loop. -/
theorem liquidado_defaults_present (d : List (String × JVal)) {k : String}
    (hk : k ∈ liquidadoFields) :
    ((liquidado_defaults d).lookup k).isSome = true :=
  foldl_setdefault_mem liquidadoFields d hk

/-- The liquidado defaulting loop never changes or removes an existing
entry — in particular unknown extra fields survive it. -/
theorem liquidado_defaults_preserve (d : List (String × JVal)) {k : String}
    {v : JVal} (h : d.lookup k = some v) :
    (liquidado_defaults d).lookup k = some v :=
  foldl_setdefault_preserve liquidadoFields d h

/-! ## The numeric date branch, restated from the specification -/

/-- The numeric date rule as the (amended) claim words it: match three
groups separated by `/`, `-`, `.`, or space, read them as day, month and
year in that order, expand a two-digit year to `19xx` when it is at least
50 and to `20xx` otherwise, validate the calendar date, and render the
day and month zero-padded with the year's decimal digits (unpadded)
behind them. -/
def claimNumericDate (l : List Char) : Option (List Char) :=
  match searchNum l with
  | none => none
  | some (g1, g2, g3) =>
    let day := digitsToNat g1
    let month := digitsToNat g2
    let yearRaw := digitsToNat g3
    let year :=
      if g3.length = 2 then
        (if 50 ≤ yearRaw then 1900 + yearRaw else 2000 + yearRaw)
      else yearRaw
    if validDate year month day then
      some (pad2 day ++ '/' :: pad2 month ++ '/' :: natDigits year)
    else none

theorem numericBranch_eq_claim (l : List Char) :
    numericBranch l = claimNumericDate l := by
  unfold numericBranch claimNumericDate
  rcases searchNum l with _ | ⟨dS, mS, yS⟩
  · rfl
  · simp only
    have hy :
        (if yS.length = 2 then
          (if digitsToNat yS < 50 then 2000 + digitsToNat yS else 1900 + digitsToNat yS)
         else digitsToNat yS) =
        (if yS.length = 2 then
          (if 50 ≤ digitsToNat yS then 1900 + digitsToNat yS else 2000 + digitsToNat yS)
         else digitsToNat yS) := by
      by_cases hl : yS.length = 2
      · by_cases h50 : digitsToNat yS < 50
        · simp [hl, h50, Nat.not_le.mpr h50]
        · simp [hl, h50, Nat.not_lt.mp h50]
      · simp [hl]
    rw [hy]
    rfl

/-! ## Index lemmas for the JSON repair failure path -/

theorem firstIdx_eq_none {c : Char} :
    ∀ {l : List Char}, c ∉ l → firstIdx c l = none := by
  intro l h
  induction l with
  | nil => rfl
  | cons x r ih =>
    have hx : ¬ (x == c) = true := by
      simp only [beq_iff_eq]
      intro he
      exact h (by rw [he]; exact List.mem_cons_self _ _)
    unfold firstIdx
    rw [if_neg hx, ih (fun hm => h (List.mem_cons_of_mem _ hm))]
    rfl

theorem lastIdx_eq_none {c : Char} {l : List Char} (h : c ∉ l) :
    lastIdx c l = none := by
  unfold lastIdx
  rw [firstIdx_eq_none (fun hm => h (List.mem_reverse.mp hm))]
  rfl

/-! ## Auxiliary predicates and accessors used by the claim theorems -/

/-- An optional amount field is `none` or a canonical two-decimal string
or one of the non-finite float renderings. -/
def amountFieldOk (o : Option String) : Prop :=
  o = none ∨ ∃ t, o = some t ∧
    (isCanonAmtS t = true ∨ t = "inf" ∨ t = "-inf" ∨ t = "nan")

/-- An optional date field is `none` or has `dd/mm/` followed by the
year's digits. -/
def dateFieldOk (o : Option String) : Prop :=
  o = none ∨ ∃ t, o = some t ∧ isDateShapeS t = true

/-- One field of the sanitized liquidado response's `data` object. -/
def liqDataField (top : List (String × JVal)) (k : String) : Option JVal :=
  match extract_liquidado_sanitize top with
  | some t =>
    (match t.lookup "data" with
     | some (JVal.obj d) => d.lookup k
     | _ => none)
  | none => none

/-- The fresh `data` dict built by the tacha controller, with its two
fields and nothing else. -/
def tachaDataFields (p : JVal × PyFloat) : List (String × (JVal ⊕ PyFloat)) :=
  [("numeroTitulo", Sum.inl p.1), ("derechosPorDevolver", Sum.inr p.2)]

/-! ## Claim theorems -/

/-- C1: the claim (and the comment on line 82 of inscrito_controller.py)
says `"1.234,56"` and `"1,234.56"` normalize to `"1234.56"`.  They do not:
the one-comma/some-period branch leaves the comma in place, `float`
rejects it, and both normalizers return `None`.  Only `"320,00"` →
`"320.00"` holds.  This theorem evaluates `norm_amount` and
`_norm_amount` at the three claimed inputs. -/
theorem C1_norm_amount_separator_bug :
    norm_amount (some "1.234,56") = none ∧
    norm_amount (some "1,234.56") = none ∧
    norm_amount (some "320,00") = some "320.00" ∧
    observado_norm_amount (some "1.234,56") = none ∧
    observado_norm_amount (some "1,234.56") = none ∧
    observado_norm_amount (some "320,00") = some "320.00" := by
  refine ⟨?_, ?_, ?_, ?_, ?_, ?_⟩ <;> decide!

/-- C4 counterexample: `"INF"` parses as an infinite float and
`norm_amount` returns the string `"inf"`, which is not a fixed-point
two-decimal string, so the normalizer does not always return a canonical
string or null. -/
theorem C4_counterexample_inf :
    norm_amount (some "INF") = some "inf" ∧ isCanonAmtS "inf" = false := by
  exact ⟨by decide!, by decide⟩

/-- C4 (amended): for every input, the string amount normalizers return
null (in particular on null/empty/unparseable input, `"abc"` included) or
a canonical fixed-point two-decimal string or — the amendment — one of the
non-finite float renderings `"inf"`, `"-inf"`, `"nan"` when the cleaned
input parses to a non-finite float; they are total (never raise). -/
theorem C4_amended_amount_contract :
    norm_amount none = none ∧
    norm_amount (some "") = none ∧
    norm_amount (some "abc") = none ∧
    observado_norm_amount none = none ∧
    observado_norm_amount (some "") = none ∧
    observado_norm_amount (some "abc") = none ∧
    (∀ s, amountFieldOk (norm_amount s)) ∧
    (∀ s, amountFieldOk (observado_norm_amount s)) := by
  refine ⟨?_, ?_, ?_, ?_, ?_, ?_, ?_, ?_⟩
  · rfl
  · decide!
  · decide!
  · rfl
  · decide!
  · decide!
  · exact fun s => norm_amount_shape s
  · exact fun s => observado_norm_amount_shape s

/-- C5 counterexample: `_to_float_2` has no comma-stripping branch, so the
comma-grouped `"1,234.56"` fails to parse and yields the `0.0` default
instead of the `1234.56` the claimed step-3 rule would produce. -/
theorem C5_counterexample_comma_grouping :
    to_float_2S (some "1,234.56") = PyFloat.finite false 0 ∧
    PyFloat.finite false 0 ≠ PyFloat.finite false (1234.56 : ℚ) := by
  refine ⟨by decide!, ?_⟩
  intro h
  have : (0 : ℚ) = (1234.56 : ℚ) := congrArg (fun p => match p with
    | PyFloat.finite _ m => m
    | _ => 0) h
  norm_num at this

/-- C5 (amended): `_to_float_2` returns a numeric value, defaulting to
`0.0` when the input is null, empty, or unparseable; it strips all
characters other than digits, commas and periods before separator
disambiguation; its only separator rule is single-comma-no-period →
decimal comma (commas are never stripped, so comma-grouped input defaults
to `0.0`); with more than one remaining period it keeps the first two
digit groups. -/
theorem C5_amended_to_float_2 :
    to_float_2S none = PyFloat.finite false 0 ∧
    to_float_2S (some "") = PyFloat.finite false 0 ∧
    to_float_2S (some "abc") = PyFloat.finite false 0 ∧
    to_float_2S (some "S/ 37,20 soles") = PyFloat.finite false (37.2 : ℚ) ∧
    to_float_2S (some "1,234.56") = PyFloat.finite false 0 ∧
    to_float_2S (some "1.234.56") = PyFloat.finite false (1.23 : ℚ) ∧
    to_float_2S (some "1.2.3.4x") = PyFloat.finite false (1.2 : ℚ) := by
  refine ⟨?_, ?_, ?_, ?_, ?_, ?_, ?_⟩ <;> decide!

/-- C6: the date normalizer turns `"24 de Octubre de 2025"` and
`"24/10/25"` into `"24/10/2025"` and rejects the invalid calendar date
`"31/02/2025"` (the inscrito and observado copies of the function are
character-for-character identical and share this embedding). -/
theorem C6_date_examples :
    norm_date_ddmmyyyy (some "24 de Octubre de 2025") = some "24/10/2025" ∧
    norm_date_ddmmyyyy (some "24/10/25") = some "24/10/2025" ∧
    norm_date_ddmmyyyy (some "31/02/2025") = none := by
  refine ⟨?_, ?_, ?_⟩ <;> decide!

/-- C2 counterexample: the liquidado pipeline performs no normalization —
a model-supplied `derechosRegistrales` of `"340,90"` survives the
sanitation step verbatim even though it is not a fixed two-decimal
string, so the output-format invariant fails for this pipeline. -/
theorem C2_counterexample_liquidado_passthrough :
    liqDataField [("data", JVal.obj [("derechosRegistrales", JVal.str "340,90")])]
      "derechosRegistrales" = some (JVal.str "340,90") ∧
    isCanonAmtS "340,90" = false := by
  exact ⟨by with_unfolding_all rfl, by decide⟩

/-- C2 (amended): the normalizing pipelines (anotacion, observado) do
satisfy the invariant up to two caveats — a non-finite parsed amount
prints as `"inf"`/`"-inf"`/`"nan"`, and a year below 1000 prints without
zero padding — while the liquidado pipeline returns every model-supplied
field unchanged (its defaulting loop never alters an existing entry) and
the tacha pipeline emits a numeric amount rather than a string. -/
theorem C2_amended_normalization_by_pipeline :
    (∀ d : AnotacionData,
      amountFieldOk ((anotacion_normalize d).montoInscripcion) ∧
      amountFieldOk ((anotacion_normalize d).montoDevolucion) ∧
      dateFieldOk ((anotacion_normalize d).fechaPresentacion) ∧
      dateFieldOk ((anotacion_normalize d).fechaInscripcion)) ∧
    (∀ d : ObservadoData,
      dateFieldOk ((observado_normalize d).fechaObservacion) ∧
      dateFieldOk ((observado_normalize d).fechaVencimiento) ∧
      amountFieldOk ((observado_normalize d).montoLiquidado)) ∧
    (∀ (d : List (String × JVal)) (k : String) (v : JVal),
      d.lookup k = some v → (liquidado_defaults d).lookup k = some v) := by
  refine ⟨?_, ?_, ?_⟩
  · intro d
    exact ⟨norm_amount_shape _, norm_amount_shape _, norm_date_shape _, norm_date_shape _⟩
  · intro d
    exact ⟨norm_date_shape _, norm_date_shape _, observado_norm_amount_shape _⟩
  · intro d k v h
    exact liquidado_defaults_preserve d h

/-- C2 witness: the passthrough clause applied to a concrete record. -/
theorem C2_amended_witness :
    List.lookup "derechosRegistrales" [("derechosRegistrales", JVal.str "340,90")] =
      some (JVal.str "340,90") ∧
    (liquidado_defaults [("derechosRegistrales", JVal.str "340,90")]).lookup
      "derechosRegistrales" = some (JVal.str "340,90") := by
  refine ⟨by with_unfolding_all rfl, ?_⟩
  exact C2_amended_normalization_by_pipeline.2.2 _ _ _ (by with_unfolding_all rfl)

/-- C3 counterexample: the liquidado pipeline does not drop unknown extra
fields — a model-supplied `"foo"` key is still in the sanitized
response's `data` object. -/
theorem C3_counterexample_liquidado_extra_retained :
    liqDataField [("data", JVal.obj [("foo", JVal.str "bar")])] "foo" =
      some (JVal.str "bar") ∧
    "foo" ∉ liquidadoFields := by
  exact ⟨by with_unfolding_all rfl, by decide⟩

/-- C3 (amended): after the defaulting step every field of the fixed list
is present in the liquidado response and the tacha response carries
exactly its two fixed fields (unknown keys absent); but unknown extra
fields are dropped only by the strict pipelines and tacha — the liquidado
defaulting loop retains them. -/
theorem C3_amended_schema_defaulting :
    (∀ (d : List (String × JVal)) (k : String), k ∈ liquidadoFields →
      ((liquidado_defaults d).lookup k).isSome = true) ∧
    (∀ (d : List (String × JVal)) (k : String) (v : JVal), d.lookup k = some v →
      (liquidado_defaults d).lookup k = some v) ∧
    (∀ (p : JVal × PyFloat) (k : String), k ∉ tachadoResponseKeys →
      (tachaDataFields p).lookup k = none) := by
  refine ⟨?_, ?_, ?_⟩
  · intro d k hk
    exact liquidado_defaults_present d hk
  · intro d k v h
    exact foldl_setdefault_preserve liquidadoFields d h
  · intro p k hk
    simp only [tachadoResponseKeys, List.mem_cons, List.not_mem_nil, or_false,
      not_or] at hk
    obtain ⟨h1, h2⟩ := hk
    have hb1 : (k == "numeroTitulo") = false := by
      simp [h1]
    have hb2 : (k == "derechosPorDevolver") = false := by
      simp [h2]
    simp [tachaDataFields, List.lookup, hb1, hb2]

/-- C3 witness: presence and key-exactness at concrete inputs. -/
theorem C3_amended_witness :
    "anioTitulo" ∈ liquidadoFields ∧
    ((liquidado_defaults []).lookup "anioTitulo").isSome = true ∧
    "zzz" ∉ tachadoResponseKeys ∧
    (tachaDataFields (JVal.null, PyFloat.finite false 0)).lookup "zzz" = none := by
  refine ⟨by decide, ?_, by decide, ?_⟩
  · exact C3_amended_schema_defaulting.1 [] "anioTitulo" (by decide)
  · exact C3_amended_schema_defaulting.2.2 (JVal.null, PyFloat.finite false 0) "zzz" (by decide)

/-- C7 counterexample: `"1/1/123"` matches the numeric pattern, year 123
is a valid `datetime` year, and `strftime("%Y")` prints it unpadded —
the result `"01/01/123"` is not zero-padded `dd/mm/yyyy`. -/
theorem C7_counterexample_year_padding :
    norm_date_ddmmyyyy (some "1/1/123") = some "01/01/123" ∧
    isDdmmyyyyS "01/01/123" = false := by
  exact ⟨by decide!, by decide⟩

theorem norm_dateL_numeric (l : List Char) (h : spanishResult l = none) :
    norm_date_ddmmyyyyL (some l) = claimNumericDate l := by
  by_cases he : l.isEmpty
  · have hnil : l = [] := by
      cases l with
      | nil => rfl
      | cons c r => simp at he
    subst hnil
    rfl
  · have heq : norm_date_ddmmyyyyL (some l) = numericBranch l := by
      simp [norm_date_ddmmyyyyL, he, h]
    rw [heq, numericBranch_eq_claim]

/-- C7 (amended): whenever the long Spanish form does not apply, the
normalizer returns exactly the claim's numeric rule — three groups
separated by `/`, `-`, `.`, or space read as day/month/year, two-digit
years expanded to `19xx` when at least 50 and `20xx` otherwise, null on
an invalid calendar date, day and month zero-padded — except that the
year is rendered without zero padding (amendment forced by the
counterexample). -/
theorem C7_amended_numeric_date (s : String) (h : spanishResult s.data = none) :
    norm_date_ddmmyyyy (some s) = (claimNumericDate s.data).map String.mk := by
  show (norm_date_ddmmyyyyL (some s.data)).map String.mk = _
  rw [norm_dateL_numeric s.data h]

/-- C7 witness: the numeric rule applied to `"24/10/25"`. -/
theorem C7_amended_witness :
    spanishResult (cs "24/10/25") = none ∧
    norm_date_ddmmyyyy (some "24/10/25") =
      (claimNumericDate (cs "24/10/25")).map String.mk := by
  exact ⟨by decide!, C7_amended_numeric_date "24/10/25" (by decide!)⟩

/-- C8: JSON repair parses directly, recovers `{"a":1}` from leading or
trailing junk via the first-`{`-to-last-`}` slice, and propagates a parse
error (returns none) when the text lacks an opening or closing brace or
when the slice itself fails to parse — with no further repair attempted. -/
theorem C8_json_repair :
    repair_json_blockS "\x7b\"a\":1\x7d trailing junk" = some (JVal.obj [("a", JVal.num 1)]) ∧
    repair_json_blockS "leading junk \x7b\"a\":1\x7d" = some (JVal.obj [("a", JVal.num 1)]) ∧
    (∀ l : List Char, jsonLoads l = none → '{' ∉ l ∨ '}' ∉ l →
      repair_json_block l = none) ∧
    (∀ (l : List Char) (i j : Nat), jsonLoads l = none → firstIdx '{' l = some i →
      lastIdx '}' l = some j → jsonLoads ((l.drop i).take (j + 1 - i)) = none →
      repair_json_block l = none) := by
  refine ⟨by with_unfolding_all rfl, by with_unfolding_all rfl, ?_, ?_⟩
  · intro l h hb
    unfold repair_json_block
    rw [h]
    rcases hb with hb | hb
    · rw [firstIdx_eq_none hb]
    · rw [lastIdx_eq_none hb]
      cases firstIdx '{' l <;> rfl
  · intro l i j h h1 h2 h3
    unfold repair_json_block
    rw [h, h1, h2]
    exact h3

/-- C8 witness: the propagation clause at a brace-free text. -/
theorem C8_witness :
    jsonLoads (cs "no braces at all") = none ∧
    '{' ∉ cs "no braces at all" ∧
    repair_json_block (cs "no braces at all") = none := by
  refine ⟨by with_unfolding_all rfl, by decide, ?_⟩
  exact C8_json_repair.2.2.1 _ (by with_unfolding_all rfl) (Or.inl (by decide))

/-- C9: every upload whose (lowercased) content type is neither
`application/pdf` nor an `image/` type is rejected by all four
controllers with HTTP 400 before any external call — the effect trace is
empty. -/
theorem C9_content_type_gate (ct : String) (n : Nat)
    (h1 : is_pdf ct = false) (h2 : is_img ct = false) :
    extract_anotacion_start ct n = ([], StartOutcome.httpError 400) ∧
    extract_liquidado_start ct n = ([], StartOutcome.httpError 400) ∧
    extract_observado_start ct n = ([], StartOutcome.httpError 400) ∧
    extract_tachado_start ct n = ([], StartOutcome.httpError 400) := by
  have hg : controller_start ct n = ([], StartOutcome.httpError 400) := by
    unfold controller_start
    rw [h1, h2]
    simp
  exact ⟨hg, hg, hg, hg⟩

/-- C9 witness: `text/plain` is rejected. -/
theorem C9_witness :
    is_pdf "text/plain" = false ∧
    is_img "text/plain" = false ∧
    extract_anotacion_start "text/plain" 3 = ([], StartOutcome.httpError 400) ∧
    extract_tachado_start "text/plain" 3 = ([], StartOutcome.httpError 400) := by
  refine ⟨by decide, by decide, ?_, ?_⟩
  · exact (C9_content_type_gate "text/plain" 3 (by decide) (by decide)).1
  · exact (C9_content_type_gate "text/plain" 3 (by decide) (by decide)).2.2.2

/-- C10: whenever the tacha pipeline produces a response, its
`numeroTitulo` is null when the model omitted the key and, more
generally, whenever the model-supplied value is falsy — the empty string
included — mirroring `numero if numero else None`. -/
theorem C10_tacha_numeroTitulo_falsy (d : List (String × JVal))
    (out : JVal × PyFloat) (h : extract_tachado_normalize d = some out) :
    (d.lookup "numeroTitulo" = none → out.1 = JVal.null) ∧
    (∀ v, d.lookup "numeroTitulo" = some v → pyFalsy v = true → out.1 = JVal.null) := by
  unfold extract_tachado_normalize at h
  rcases hf : to_float_2_jval (d.lookup "derechosPorDevolver") with _ | f
  · rw [hf] at h
    exact absurd h (by simp)
  · rw [hf] at h
    simp only [Option.some_inj] at h
    constructor
    · intro h0
      rw [← h]
      simp [h0]
    · intro v hv hfal
      rw [← h]
      simp [hv, hfal]

/-- C10 witness: an empty-string `numeroTitulo` is coerced to null. -/
theorem C10_witness :
    extract_tachado_normalize
        [("numeroTitulo", JVal.str ""), ("derechosPorDevolver", JVal.null)] =
      some (JVal.null, PyFloat.finite false 0) ∧
    (JVal.null, PyFloat.finite false 0).1 = JVal.null := by
  refine ⟨by with_unfolding_all rfl, ?_⟩
  exact (C10_tacha_numeroTitulo_falsy
      [("numeroTitulo", JVal.str ""), ("derechosPorDevolver", JVal.null)]
      (JVal.null, PyFloat.finite false 0) (by with_unfolding_all rfl)).2
    (JVal.str "") (by with_unfolding_all rfl) (by with_unfolding_all rfl)

end Esquelas
